import Mathlib

/-!
Shallow embedding of the attachcloudip broker core (Go) in Lean 4.

Sources embedded here:
- `pkg/registry` (bundled in `pkg/tcpmanager/tcp_manager.go`): client registry,
  heartbeat monitor, stale cleanup, TCP-connection counters, port counter.
- `pkg/service/tunnel_service.go`: TunnelService registration, path matching,
  request/response correlator.
- `pkg/worker/dispatcher.go`: bounded job queue.
- `pkg/tcpmanager/tcp_manager.go`: TCPManager port inventory.

Modelling conventions: Go maps become association lists (assignment replaces
in place or appends; iteration order is insertion order, one fixed refinement
of Go's unspecified order); `time.Time`/`time.Duration` become `Nat`;
UUID generation becomes an explicit parameter; locks and logging are erased;
`net.Listen` probing becomes an explicit `canBind` oracle; a Go channel of
capacity one becomes a list-valued buffer of length at most one.
-/

/-- Association-list lookup, modelling Go map read `m[k]`. -/
def lookupA {α : Type} (k : String) : List (String × α) → Option α
  | [] => none
  | (k', v) :: rest => if k' = k then some v else lookupA k rest

/-- Association-list write, modelling Go map assignment `m[k] = v`. -/
def insertA {α : Type} (k : String) (v : α) : List (String × α) → List (String × α)
  | [] => [(k, v)]
  | (k', v') :: rest => if k' = k then (k, v) :: rest else (k', v') :: insertA k v rest

/-- Association-list delete, modelling Go `delete(m, k)`. -/
def eraseA {α : Type} (k : String) (l : List (String × α)) : List (String × α) :=
  l.filter (fun kv => kv.1 ≠ k)

/-- Remove the first occurrence of `x`, modelling the Go idiom
`append(ids[:i], ids[i+1:]...)` guarded by `if id == x { ...; break }`. -/
def eraseFirst (x : String) : List String → List String
  | [] => []
  | y :: ys => if y = x then ys else y :: eraseFirst x ys

/-- Remove `clientID` from the path entry at `path` (first occurrence), then
delete the entry if the list at `path` is now empty. This is the shared shape
of the per-path removal loop in `Registry.CleanupStaleClients` and
`TunnelService.removeClientPaths`: the Go code removes the first matching
index and breaks, then checks `len(m[path]) == 0` on the live map and
deletes the key if so. -/
def removePathEntry (m : List (String × List String)) (path clientID : String) :
    List (String × List String) :=
  let clientList := (lookupA path m).getD []
  let m1 :=
    if clientID ∈ clientList then insertA path (eraseFirst clientID clientList) m
    else m
  if ((lookupA path m1).getD []).length = 0 then eraseA path m1 else m1

namespace registry

/-- Go `registry.ClientType`. -/
inductive ClientType
  | http
  | tcp
deriving DecidableEq, Repr

/-- Go `registry.ClientRegistration` (the per-client mutex is erased; times
are abstract `Nat` instants). -/
structure ClientRegistration where
  id : String
  type : ClientType
  paths : List String
  lastHeartbeat : Nat
  tcpPort : Int
  activeTCPConnections : Int
  status : String
  metadata : List (String × String)
deriving DecidableEq, Repr

/-- Go `registry.Registry`: clients map, path index, port counter. -/
structure Registry where
  clients : List (String × ClientRegistration)
  pathToClientIDs : List (String × List String)
  availableTCPPort : Int
deriving DecidableEq, Repr

/-- Go `registry.NewRegistry`. -/
def NewRegistry (startPort : Int) : Registry :=
  { clients := [], pathToClientIDs := [], availableTCPPort := startPort }

/-- Go `Registry.AllocateTCPPort`: returns the counter and increments it;
the error branch of the Go signature is never taken. -/
def AllocateTCPPort (r : Registry) : Except String (Int × Registry) :=
  .ok (r.availableTCPPort, { r with availableTCPPort := r.availableTCPPort + 1 })

/-- Go `Registry.GetNextTCPPort`. -/
def GetNextTCPPort (r : Registry) : Int × Registry :=
  (r.availableTCPPort, { r with availableTCPPort := r.availableTCPPort + 1 })

/-- Go `Registry.RegisterClient`. The UUID produced by `uuid.New().String()`
becomes the explicit `freshId` parameter and `time.Now()` becomes `now`.
No validation or normalization is performed on `paths`; each raw path's
entry gets `freshId` appended at its end. -/
def RegisterClient (r : Registry) (paths : List String) (clientType : ClientType)
    (metadata : List (String × String)) (freshId : String) (now : Nat) :
    Except String (ClientRegistration × Registry) :=
  match (if clientType = ClientType.tcp then AllocateTCPPort r else .ok (0, r)) with
  | .error e => .error ("failed to allocate TCP port: " ++ e)
  | .ok (tcpPort, r1) =>
    let client : ClientRegistration :=
      { id := freshId, type := clientType, paths := paths, lastHeartbeat := now,
        tcpPort := tcpPort, activeTCPConnections := 0, status := "active",
        metadata := metadata }
    let newIndex := paths.foldl
      (fun m path => insertA path (((lookupA path m).getD []) ++ [freshId]) m)
      r1.pathToClientIDs
    .ok (client, { r1 with clients := insertA freshId client r1.clients,
                           pathToClientIDs := newIndex })

/-- Go `Registry.FindClientForPath`: exact lookup of the raw `path` in the
index; error when absent or empty; otherwise resolves ids to records,
skipping ids with no record. -/
def FindClientForPath (r : Registry) (path : String) :
    Except String (List ClientRegistration) :=
  match lookupA path r.pathToClientIDs with
  | none => .error ("no clients found for path: " ++ path)
  | some clientIDs =>
    if clientIDs.length = 0 then .error ("no clients found for path: " ++ path)
    else .ok (clientIDs.filterMap (fun clientID => lookupA clientID r.clients))

/-- Go `Registry.UpdateHeartbeat`. -/
def UpdateHeartbeat (r : Registry) (clientID : String) (now : Nat) :
    Except String Registry :=
  match lookupA clientID r.clients with
  | none => .error ("client not found: " ++ clientID)
  | some client =>
    let updated := { client with lastHeartbeat := now, status := "active" }
    .ok { r with clients := insertA clientID updated r.clients }

/-- One tick of the goroutine started by `Registry.StartHeartbeatMonitor`:
every client whose last heartbeat is more than `interval*2` ago is marked
`"inactive"`; nothing is removed. -/
def HeartbeatScan (r : Registry) (interval now : Nat) : Registry :=
  { r with clients := r.clients.map (fun kv =>
      (kv.1, if now - kv.2.lastHeartbeat > interval * 2
             then { kv.2 with status := "inactive" } else kv.2)) }

/-- One iteration of the `CleanupStaleClients` range loop: when the visited
client is stale, delete it from the clients map, scrub its paths from the
index (deleting entries left empty) and record its id. -/
def cleanupStep (timeout now : Nat) (acc : Registry × List String)
    (kv : String × ClientRegistration) : Registry × List String :=
  if now - kv.2.lastHeartbeat > timeout then
    ({ clients := eraseA kv.1 acc.1.clients,
       pathToClientIDs :=
         kv.2.paths.foldl (fun m path => removePathEntry m path kv.1)
           acc.1.pathToClientIDs,
       availableTCPPort := acc.1.availableTCPPort },
     acc.2 ++ [kv.1])
  else acc

/-- Go `Registry.CleanupStaleClients`: removes every client whose last
heartbeat is more than `timeout` ago, removing it from each of its paths'
entries and deleting entries left empty; returns the removed ids. -/
def CleanupStaleClients (r : Registry) (timeout now : Nat) :
    Registry × List String :=
  r.clients.foldl (cleanupStep timeout now) (r, [])

/-- Go `Registry.IncrementTCPConnection`. -/
def IncrementTCPConnection (r : Registry) (clientID : String) :
    Except String Registry :=
  match lookupA clientID r.clients with
  | none => .error ("client not found: " ++ clientID)
  | some client =>
    let updated := { client with activeTCPConnections := client.activeTCPConnections + 1 }
    .ok { r with clients := insertA clientID updated r.clients }

/-- Go `Registry.DecrementTCPConnection`: decrements only when the counter
is positive. -/
def DecrementTCPConnection (r : Registry) (clientID : String) :
    Except String Registry :=
  match lookupA clientID r.clients with
  | none => .error ("client not found: " ++ clientID)
  | some client =>
    let newCount :=
      if client.activeTCPConnections > 0 then client.activeTCPConnections - 1
      else client.activeTCPConnections
    let updated := { client with activeTCPConnections := newCount }
    .ok { r with clients := insertA clientID updated r.clients }

/-- Go `Registry.RemoveClient`: deletes the record and removes the first
occurrence of `clientID` from every path entry; entries left empty are
kept (there is no `delete` on the path map here). -/
def RemoveClient (r : Registry) (clientID : String) : Registry :=
  { r with clients := eraseA clientID r.clients,
           pathToClientIDs :=
             r.pathToClientIDs.map (fun kv => (kv.1, eraseFirst clientID kv.2)) }

end registry

namespace tcpmanager

/-- Go `tcpmanager.TCPManager`, restricted to the port-inventory state used
by `GetAvailablePort` (listeners and connections are live sockets, erased). -/
structure TCPManager where
  portInventory : List Int
  maxPorts : Nat
deriving DecidableEq, Repr

/-- Go `NewTCPManager`: empty inventory, `maxPorts = 10`. -/
def NewTCPManager : TCPManager :=
  { portInventory := [], maxPorts := 10 }

/-- The bounded probe loop of `GetAvailablePort`: tries `current`,
`current+1`, ... for `fuel` attempts against the bind oracle. -/
def scanPorts (canBind : Int → Bool) (current : Int) : Nat → Option Int
  | 0 => none
  | fuel + 1 => if canBind current then some current else scanPorts canBind (current + 1) fuel

/-- Go `TCPManager.GetAvailablePort`. The outcome of `net.Listen` probing is
the oracle `canBind`. The inventory-full check happens before any probe;
a successful probe appends the port to the inventory (with no membership
check); otherwise up to 1000 consecutive ports are probed starting from
`startPort` (or 8000 when `startPort ≤ 0`). -/
def GetAvailablePort (m : TCPManager) (canBind : Int → Bool) (startPort : Int) :
    Except String Int × TCPManager :=
  if m.portInventory.length ≥ m.maxPorts then
    (.error "port inventory is full", m)
  else if startPort > 0 && canBind startPort then
    (.ok startPort, { m with portInventory := m.portInventory ++ [startPort] })
  else
    let current := if startPort ≤ 0 then 8000 else startPort
    match scanPorts canBind current 1000 with
    | some port => (.ok port, { m with portInventory := m.portInventory ++ [port] })
    | none => (.error "could not find available port after 1000 attempts", m)

end tcpmanager

namespace worker

/-- Go `worker.Dispatcher`, restricted to the bounded job queue that
`Submit` interacts with; the buffered channel of capacity `queueSize`
becomes a list that may hold at most `queueSize` pending jobs. -/
structure Dispatcher (Job : Type) where
  maxWorkers : Nat
  queueSize : Nat
  jobQueue : List Job

/-- Go `worker.NewDispatcher`. -/
def NewDispatcher (Job : Type) (maxWorkers queueSize : Nat) : Dispatcher Job :=
  { maxWorkers := maxWorkers, queueSize := queueSize, jobQueue := [] }

/-- Go `Dispatcher.Submit`: non-blocking `select` with `default` on the
buffered job channel — enqueue when the buffer has room, otherwise report
the queue full and drop the job. -/
def Dispatcher.Submit {Job : Type} (d : Dispatcher Job) (job : Job) :
    Except String Unit × Dispatcher Job :=
  if d.jobQueue.length < d.queueSize then
    (.ok (), { d with jobQueue := d.jobQueue ++ [job] })
  else
    (.error "job queue is full", d)

end worker

namespace service

/-- Go `service.HttpRequest` (`Body []byte` becomes a byte list). -/
structure HttpRequest where
  method : String
  path : String
  headers : List (String × String)
  body : List Nat
deriving DecidableEq, Repr

/-- Go `service.HttpResponse`. -/
structure HttpResponse where
  statusCode : Int
  headers : List (String × String)
  body : List Nat
deriving DecidableEq, Repr

/-- Go `service.StreamRequestType`. -/
inductive StreamRequestType
  | httpRequest
  | httpResponse
  | heartbeat
  | pathUpdate
deriving DecidableEq, Repr

/-- Go `service.StreamResponseType`. -/
inductive StreamResponseType
  | httpRequest
  | httpResponse
  | error
  | registrationSuccess
deriving DecidableEq, Repr

/-- Go `service.StreamRequest` (`HttpRequest` pointer kept non-optional:
every code path embedded here dereferences it). -/
structure StreamRequest where
  type : StreamRequestType
  requestId : String
  httpRequest : HttpRequest
  protocol : String
deriving DecidableEq, Repr

/-- Go `service.StreamResponse`. -/
structure StreamResponse where
  type : StreamResponseType
  requestId : String
  httpRequest : Option HttpRequest
  httpResponse : Option HttpResponse
  message : String
  port : Int
deriving DecidableEq, Repr

/-- Go `service.ResponseWaiter`: the buffered response channel of capacity
one becomes a list holding at most one undelivered response (the `Done`
channel is never used by the embedded operations). -/
structure ResponseWaiter where
  response : List StreamResponse
deriving DecidableEq, Repr

/-- Go `service.ClientInfo`. -/
structure ClientInfo where
  id : String
  sessionID : String
  paths : List String
  description : String
  metadata : List (String × String)
  lastSeen : Nat
  status : String
  protocol : String
  port : Int
deriving DecidableEq, Repr

/-- Go `service.TunnelService`. -/
structure TunnelService where
  clients : List (String × ClientInfo)
  pathClients : List (String × List String)
  responseWaiters : List (String × ResponseWaiter)
  availablePorts : List Int
deriving DecidableEq, Repr

/-- Go `service.NewTunnelService`. -/
def NewTunnelService (ports : List Int) : TunnelService :=
  { clients := [], pathClients := [], responseWaiters := [], availablePorts := ports }

/-- Go `service.normalizePath`: `strings.TrimRight(p, "/")` drops every
trailing slash; then a leading slash is forced. -/
def normalizePath (p : String) : String :=
  let trimmed := String.mk ((p.data.reverse.dropWhile (fun c => c == '/')).reverse)
  if trimmed.data.head? = some '/' then trimmed else "/" ++ trimmed

/-- Character-list version of `strings.HasPrefix`. -/
def listHasPre : List Char → List Char → Bool
  | [], _ => true
  | _ :: _, [] => false
  | c :: cs, d :: ds => c == d && listHasPre cs ds

/-- Go `service.isPathMatch`: the request path starts with the pattern. -/
def isPathMatch (pat requestPath : String) : Bool :=
  listHasPre pat.data requestPath.data

/-- Go `service.contains`. -/
def contains (slice : List String) (item : String) : Bool :=
  slice.any (fun s => s = item)

/-- Go `TunnelService.removeClientPaths`: for each of the client's paths,
remove its id from the normalized path's entry (first occurrence) and
delete the entry when the list at that key is empty. -/
def removeClientPaths (pathClients : List (String × List String))
    (client : ClientInfo) : List (String × List String) :=
  client.paths.foldl
    (fun m p => removePathEntry m (normalizePath p) client.id) pathClients

/-- Go `TunnelService.Register`. `uuid.New().String()` for the session id
becomes `freshSessionID`; `time.Now()` becomes `now`. Validation happens
first (empty client id, empty path, empty port pool); an existing client
under the same id is removed together with its path entries; then the head
of `availablePorts` is taken and the normalized path indexed. -/
def Register (s : TunnelService) (req : StreamRequest) (freshSessionID : String)
    (now : Nat) : Except String StreamResponse × TunnelService :=
  if req.requestId = "" then (.error "client ID is required", s)
  else if req.httpRequest.path.length = 0 then
    (.error "at least one path is required", s)
  else if s.availablePorts.length = 0 then
    (.error "no available ports for registration", s)
  else
    let s1 :=
      match lookupA req.requestId s.clients with
      | some oldClient =>
        { s with pathClients := removeClientPaths s.pathClients oldClient,
                 clients := eraseA req.requestId s.clients }
      | none => s
    match s1.availablePorts with
    | [] => (.error "no available ports for registration", s1)
    | port :: rest =>
      let s2 := { s1 with availablePorts := rest }
      let client0 : ClientInfo :=
        { id := req.requestId, sessionID := freshSessionID, paths := [],
          description := "", metadata := [], lastSeen := now,
          status := "connecting", protocol := req.protocol, port := port }
      let normalizedPath := normalizePath req.httpRequest.path
      let step :=
        if contains client0.paths normalizedPath then (client0, s2)
        else
          let entry := ((lookupA normalizedPath s2.pathClients).getD []) ++ [req.requestId]
          ({ client0 with paths := client0.paths ++ [normalizedPath] },
           { s2 with pathClients := insertA normalizedPath entry s2.pathClients })
      let s4 := { step.2 with clients := insertA req.requestId step.1 step.2.clients }
      (.ok { type := StreamResponseType.registrationSuccess,
             requestId := req.requestId, httpRequest := none, httpResponse := none,
             message := "", port := port }, s4)

/-- The pattern-scan loop of `FindMatchingClient`: first entry (in index
order, the model's refinement of Go map order) whose pattern is a prefix of
the normalized request path, with a nonempty id list whose head resolves
to an existing client. -/
def scanPathClients (s : TunnelService) (normalizedRequestPath : String) :
    List (String × List String) → Option ClientInfo
  | [] => none
  | (pat, clientIDs) :: rest =>
    match clientIDs with
    | [] => scanPathClients s normalizedRequestPath rest
    | c0 :: _ =>
      if isPathMatch pat normalizedRequestPath then
        match lookupA c0 s.clients with
        | some client => some client
        | none => scanPathClients s normalizedRequestPath rest
      else scanPathClients s normalizedRequestPath rest

/-- Go `TunnelService.FindMatchingClient`: normalize the query, try the
exact entry (first id of the list, if its record exists), then fall back
to the pattern scan; error when both fail. -/
def FindMatchingClient (s : TunnelService) (requestPath : String) :
    Except String ClientInfo :=
  let normalizedRequestPath := normalizePath requestPath
  let exactResult :=
    match lookupA normalizedRequestPath s.pathClients with
    | some (c0 :: _) => lookupA c0 s.clients
    | _ => none
  match exactResult with
  | some client => .ok client
  | none =>
    match scanPathClients s normalizedRequestPath s.pathClients with
    | some client => .ok client
    | none => .error ("no client found for path: " ++ requestPath)

/-- Go `TunnelService.removeClient`. -/
def removeClient (s : TunnelService) (clientID : String) : TunnelService :=
  match lookupA clientID s.clients with
  | some client =>
    { s with pathClients := removeClientPaths s.pathClients client,
             clients := eraseA clientID s.clients }
  | none => s

/-- Go `TunnelService.handleHTTPResponse`: reject an empty request id; fail
when no waiter is stored under the id; otherwise build the response (HTTP
or error envelope) and try a non-blocking send on the waiter's one-slot
channel, failing with a channel-full error when it already holds one. -/
def handleHTTPResponse (s : TunnelService) (req : StreamRequest) :
    Except String Unit × TunnelService :=
  if req.requestId = "" then (.error "empty request ID", s)
  else
    match lookupA req.requestId s.responseWaiters with
    | none => (.error ("no waiter found for request ID: " ++ req.requestId), s)
    | some waiter =>
      let streamResp : StreamResponse :=
        match req.type with
        | StreamRequestType.httpResponse =>
          { type := StreamResponseType.httpResponse, requestId := req.requestId,
            httpRequest := none,
            httpResponse := some { statusCode := 200, headers := req.httpRequest.headers,
                                   body := req.httpRequest.body },
            message := "", port := 0 }
        | _ =>
          { type := StreamResponseType.error, requestId := req.requestId,
            httpRequest := none, httpResponse := none,
            message := "Unexpected stream request type", port := 0 }
      if waiter.response.length < 1 then
        let filled : ResponseWaiter := { response := waiter.response ++ [streamResp] }
        (.ok (), { s with responseWaiters := insertA req.requestId filled s.responseWaiters })
      else
        (.error ("response channel full for request ID: " ++ req.requestId), s)

/-- Go `TunnelService.handleHTTPRequest`, specialized to a run in which no
matching `handleHTTPResponse` delivery arrives before the 30-second timer:
the waiter is stored, `SendToClient` checks the client exists, the `select`
takes the timeout branch (or the send error returns early), and the
deferred `Delete` removes the waiter on return. -/
def handleHTTPRequestNoReply (s : TunnelService) (clientID requestID : String) :
    Except String Unit × TunnelService :=
  let waiter : ResponseWaiter := { response := [] }
  let stored := { s with responseWaiters := insertA requestID waiter s.responseWaiters }
  let final := { stored with responseWaiters := eraseA requestID stored.responseWaiters }
  match lookupA clientID stored.clients with
  | none => (.error "failed to send request to client: client not found", final)
  | some _ => (.error "request timeout", final)

end service

/-- One increment or decrement call against the registry's connection
counters, as issued by `handleConnection` / connection teardown. -/
inductive ConnOp
  | inc (clientID : String)
  | dec (clientID : String)
deriving DecidableEq, Repr

/-- Apply one counter call; the Go callers ignore the `error` return of
`IncrementTCPConnection` / `DecrementTCPConnection`, so an error leaves the
registry unchanged. -/
def applyConnOp (r : registry.Registry) : ConnOp → registry.Registry
  | ConnOp.inc clientID =>
    match registry.IncrementTCPConnection r clientID with
    | .ok r' => r'
    | .error _ => r
  | ConnOp.dec clientID =>
    match registry.DecrementTCPConnection r clientID with
    | .ok r' => r'
    | .error _ => r

/-- The ports produced by `n` successive `Registry.GetNextTCPPort` calls. -/
def allocSeqPorts : Nat → registry.Registry → List Int
  | 0, _ => []
  | n + 1, r =>
    (registry.GetNextTCPPort r).1 :: allocSeqPorts n (registry.GetNextTCPPort r).2

/-- No path entry of the index maps to an empty client list. -/
def NoEmptyEntries (m : List (String × List String)) : Prop :=
  ∀ kv ∈ m, kv.2 ≠ ([] : List String)

/-- Concrete registry fixture: one HTTP client `"c1"` serving `"/demo"`. -/
def regC2 : registry.Registry :=
  { clients := [("c1",
      { id := "c1", type := registry.ClientType.http, paths := ["/demo"],
        lastHeartbeat := 0, tcpPort := 0, activeTCPConnections := 0,
        status := "active", metadata := [] })],
    pathToClientIDs := [("/demo", ["c1"])],
    availableTCPPort := 9000 }

/-- Concrete registry fixture: one client `"c1"` serving `"/a"`. -/
def regC3 : registry.Registry :=
  { clients := [("c1",
      { id := "c1", type := registry.ClientType.http, paths := ["/a"],
        lastHeartbeat := 0, tcpPort := 0, activeTCPConnections := 0,
        status := "active", metadata := [] })],
    pathToClientIDs := [("/a", ["c1"])],
    availableTCPPort := 9000 }

/-- Concrete registry fixture for the heartbeat claims: client `"c1"` on
path `"/a"` whose last heartbeat was at instant 0. -/
def regC4 : registry.Registry :=
  { clients := [("c1",
      { id := "c1", type := registry.ClientType.tcp, paths := ["/a"],
        lastHeartbeat := 0, tcpPort := 9000, activeTCPConnections := 0,
        status := "active", metadata := [] })],
    pathToClientIDs := [("/a", ["c1"])],
    availableTCPPort := 9001 }

/-- A response already sitting in a waiter's one-slot channel. -/
def respC6 : service.StreamResponse :=
  { type := service.StreamResponseType.httpResponse, requestId := "r1",
    httpRequest := none, httpResponse := none, message := "", port := 0 }

/-- Service fixture: the waiter for `"r1"` exists and its channel already
holds one undelivered response. -/
def svcC6 : service.TunnelService :=
  { clients := [], pathClients := [],
    responseWaiters := [("r1", { response := [respC6] })],
    availablePorts := [] }

/-- A second delivery attempt for request `"r1"`. -/
def reqC6 : service.StreamRequest :=
  { type := service.StreamRequestType.httpResponse, requestId := "r1",
    httpRequest := { method := "POST", path := "/response", headers := [], body := [] },
    protocol := "http" }

/-- Service fixture for re-registration: client `"bob"` currently holds
port 6001; ports 6002 and 6003 remain in the pool. -/
def svcC10 : service.TunnelService :=
  { clients := [("bob",
      { id := "bob", sessionID := "sess-1", paths := ["/demo"],
        description := "", metadata := [], lastSeen := 0,
        status := "connecting", protocol := "http", port := 6001 })],
    pathClients := [("/demo", ["bob"])],
    responseWaiters := [], availablePorts := [6002, 6003] }

/-- Re-registration request for client `"bob"`. -/
def reqC10 : service.StreamRequest :=
  { type := service.StreamRequestType.httpRequest, requestId := "bob",
    httpRequest := { method := "POST", path := "/demo/", headers := [], body := [] },
    protocol := "http" }

/-! Helper lemmas about the association-list map operations. -/

theorem lookupA_insertA {α : Type} (k k' : String) (v : α) (l : List (String × α)) :
    lookupA k (insertA k' v l) = if k' = k then some v else lookupA k l := by
  induction l with
  | nil => simp [lookupA, insertA]
  | cons hd tl ih =>
    obtain ⟨k₀, v₀⟩ := hd
    by_cases h0 : k₀ = k'
    · subst h0
      by_cases h1 : k₀ = k <;> simp [lookupA, insertA, h1]
    · by_cases h1 : k₀ = k
      · subst h1
        simp [lookupA, insertA, h0, Ne.symm h0]
      · simp [lookupA, insertA, h0, h1, ih]

theorem lookupA_eraseA {α : Type} (k k' : String) (l : List (String × α)) :
    lookupA k (eraseA k' l) = if k' = k then none else lookupA k l := by
  induction l with
  | nil => simp [lookupA, eraseA]
  | cons hd tl ih =>
    obtain ⟨k₀, v₀⟩ := hd
    by_cases h0 : k₀ = k' <;> by_cases h1 : k' = k <;>
      simp_all [lookupA, eraseA, List.filter_cons]

theorem lookupA_insertA_self {α : Type} (k : String) (v : α) (l : List (String × α)) :
    lookupA k (insertA k v l) = some v := by
  rw [lookupA_insertA]; simp

theorem lookupA_mem {α : Type} (k : String) (v : α) (l : List (String × α))
    (h : lookupA k l = some v) : (k, v) ∈ l := by
  induction l with
  | nil => simp [lookupA] at h
  | cons hd tl ih =>
    obtain ⟨k₀, v₀⟩ := hd
    by_cases h0 : k₀ = k
    · subst h0
      simp [lookupA] at h
      simp [h]
    · simp [lookupA, h0] at h
      simp [ih h]

theorem mem_insertA {α : Type} (k : String) (v : α) (x : String × α)
    (l : List (String × α)) (h : x ∈ insertA k v l) : x = (k, v) ∨ x ∈ l := by
  induction l with
  | nil => simp [insertA] at h; simp [h]
  | cons hd tl ih =>
    obtain ⟨k₀, v₀⟩ := hd
    by_cases h0 : k₀ = k
    · subst h0
      simp [insertA] at h
      rcases h with h | h
      · simp [h]
      · simp [h]
    · simp [insertA, h0] at h
      rcases h with h | h
      · simp [h]
      · rcases ih h with h' | h'
        · simp [h']
        · simp [h']

theorem mem_eraseA {α : Type} (k : String) (x : String × α) (l : List (String × α))
    (h : x ∈ eraseA k l) : x.1 ≠ k ∧ x ∈ l := by
  unfold eraseA at h
  have := List.mem_filter.mp h
  refine ⟨?_, this.1⟩
  have h2 := this.2
  simpa using h2

theorem eraseFirst_not_mem (x : String) (l : List String) (h : x ∉ l) :
    eraseFirst x l = l := by
  induction l with
  | nil => rfl
  | cons y ys ih =>
    simp only [List.mem_cons, not_or] at h
    simp [eraseFirst, Ne.symm h.1, ih h.2]

theorem mem_eraseFirst_of_mem (x y : String) (l : List String)
    (h : y ∈ eraseFirst x l) : y ∈ l := by
  induction l with
  | nil => simp [eraseFirst] at h
  | cons z zs ih =>
    by_cases hz : z = x
    · subst hz; simp [eraseFirst] at h; simp [h]
    · simp [eraseFirst, hz] at h
      rcases h with h | h
      · simp [h]
      · simp [ih h]

theorem not_mem_eraseFirst_of_count_le_one (x : String) (l : List String)
    (h : l.count x ≤ 1) : x ∉ eraseFirst x l := by
  induction l with
  | nil => simp [eraseFirst]
  | cons y ys ih =>
    by_cases hy : y = x
    · subst hy
      simp [List.count_cons] at h
      intro hmem
      simp [eraseFirst] at hmem
      exact absurd (List.count_pos_iff.mpr hmem) (by omega)
    · simp [List.count_cons, hy] at h
      simp [eraseFirst, hy]
      exact ⟨fun hh => hy hh.symm, ih h⟩

theorem lookupA_map_values {α β : Type} (k : String) (f : α → β)
    (l : List (String × α)) :
    lookupA k (l.map (fun kv => (kv.1, f kv.2))) = (lookupA k l).map f := by
  induction l with
  | nil => simp [lookupA]
  | cons hd tl ih =>
    obtain ⟨k₀, v₀⟩ := hd
    by_cases h0 : k₀ = k <;> simp [lookupA, h0, ih]

theorem foldl_preserve {β γ : Type} (P : γ → Prop) (f : γ → β → γ)
    (hstep : ∀ g b, P g → P (f g b)) :
    ∀ (l : List β) (g : γ), P g → P (l.foldl f g) := by
  intro l
  induction l with
  | nil => intro g hg; simpa using hg
  | cons b bs ih => intro g hg; exact ih (f g b) (hstep g b hg)

/-! Lemmas about `removePathEntry` and the no-empty-entries invariant. -/

theorem removePathEntry_noEmpty (m : List (String × List String)) (p c : String)
    (h : NoEmptyEntries m) : NoEmptyEntries (removePathEntry m p c) := by
  intro kv hkv
  simp only [removePathEntry] at hkv
  by_cases hmem : c ∈ (lookupA p m).getD []
  · rw [if_pos hmem] at hkv
    by_cases hguard :
        ((lookupA p (insertA p (eraseFirst c ((lookupA p m).getD [])) m)).getD []).length = 0
    · rw [if_pos hguard] at hkv
      rcases mem_eraseA p kv _ hkv with ⟨hne, hkv'⟩
      rcases mem_insertA _ _ _ _ hkv' with heq | hold
      · exact absurd (by rw [heq]) hne
      · exact h kv hold
    · rw [if_neg hguard] at hkv
      rcases mem_insertA _ _ _ _ hkv with heq | hold
      · rw [lookupA_insertA_self] at hguard
        simp only [Option.getD_some] at hguard
        intro hnil
        apply hguard
        have h2 : kv.2 = eraseFirst c ((lookupA p m).getD []) := by rw [heq]
        rw [← h2, hnil]
        rfl
      · exact h kv hold
  · rw [if_neg hmem] at hkv
    by_cases hguard : ((lookupA p m).getD []).length = 0
    · rw [if_pos hguard] at hkv
      rcases mem_eraseA p kv _ hkv with ⟨_, hkv'⟩
      exact h kv hkv'
    · rw [if_neg hguard] at hkv
      exact h kv hkv

theorem foldl_removePathEntry_noEmpty (paths : List String) (c : String)
    (m : List (String × List String)) (h : NoEmptyEntries m) :
    NoEmptyEntries (paths.foldl (fun m path => removePathEntry m path c) m) :=
  foldl_preserve NoEmptyEntries _ (fun g b hg => removePathEntry_noEmpty g b c hg) paths m h

theorem cleanupStep_noEmpty (timeout now : Nat)
    (acc : registry.Registry × List String) (kv : String × registry.ClientRegistration)
    (h : NoEmptyEntries acc.1.pathToClientIDs) :
    NoEmptyEntries (registry.cleanupStep timeout now acc kv).1.pathToClientIDs := by
  unfold registry.cleanupStep
  by_cases hg : now - kv.2.lastHeartbeat > timeout
  · simp only [if_pos hg]
    exact foldl_removePathEntry_noEmpty _ _ _ h
  · simp only [if_neg hg]
    exact h

theorem cleanupStep_preserves_none (timeout now : Nat) (id : String)
    (acc : registry.Registry × List String) (kv : String × registry.ClientRegistration)
    (hnone : lookupA id acc.1.clients = none) :
    lookupA id (registry.cleanupStep timeout now acc kv).1.clients = none := by
  unfold registry.cleanupStep
  by_cases hg : now - kv.2.lastHeartbeat > timeout
  · simp only [if_pos hg]
    rw [lookupA_eraseA]
    split
    · rfl
    · exact hnone
  · simp only [if_neg hg]
    exact hnone

theorem cleanup_fold_preserves_none (timeout now : Nat) (id : String)
    (l : List (String × registry.ClientRegistration))
    (acc : registry.Registry × List String)
    (hnone : lookupA id acc.1.clients = none) :
    lookupA id ((l.foldl (registry.cleanupStep timeout now) acc).1.clients) = none :=
  foldl_preserve (fun acc => lookupA id acc.1.clients = none) _
    (fun g b hg => cleanupStep_preserves_none timeout now id g b hg) l acc hnone

theorem cleanup_fold_removes (timeout now : Nat) (id : String)
    (c : registry.ClientRegistration) :
    ∀ (l : List (String × registry.ClientRegistration))
      (acc : registry.Registry × List String),
      lookupA id l = some c → now - c.lastHeartbeat > timeout →
      lookupA id ((l.foldl (registry.cleanupStep timeout now) acc).1.clients) = none := by
  intro l
  induction l with
  | nil => intro acc h _; simp [lookupA] at h
  | cons kv tl ih =>
    intro acc hlk hstale
    obtain ⟨k₀, v₀⟩ := kv
    by_cases h0 : k₀ = id
    · subst h0
      simp [lookupA] at hlk
      subst hlk
      simp only [List.foldl_cons]
      apply cleanup_fold_preserves_none
      unfold registry.cleanupStep
      simp only [if_pos hstale]
      simp [lookupA_eraseA]
    · simp [lookupA, h0] at hlk
      simp only [List.foldl_cons]
      exact ih _ hlk hstale

theorem cleanupStep_clients_subset (timeout now : Nat)
    (acc : registry.Registry × List String) (kv : String × registry.ClientRegistration)
    (k : String) (c : registry.ClientRegistration)
    (h : lookupA k (registry.cleanupStep timeout now acc kv).1.clients = some c) :
    lookupA k acc.1.clients = some c := by
  unfold registry.cleanupStep at h
  by_cases hg : now - kv.2.lastHeartbeat > timeout
  · simp only [if_pos hg] at h
    rw [lookupA_eraseA] at h
    split at h
    · exact absurd h (by simp)
    · exact h
  · simpa [if_neg hg] using h

theorem cleanup_fold_clients_subset (timeout now : Nat) (k : String)
    (c : registry.ClientRegistration) :
    ∀ (l : List (String × registry.ClientRegistration))
      (acc : registry.Registry × List String),
      lookupA k ((l.foldl (registry.cleanupStep timeout now) acc).1.clients) = some c →
      lookupA k acc.1.clients = some c := by
  intro l
  induction l with
  | nil => intro acc h; simpa using h
  | cons kv tl ih =>
    intro acc h
    simp only [List.foldl_cons] at h
    exact cleanupStep_clients_subset timeout now acc kv k c (ih _ h)

theorem removeClientPaths_noEmpty (pc : List (String × List String))
    (client : service.ClientInfo) (h : NoEmptyEntries pc) :
    NoEmptyEntries (service.removeClientPaths pc client) := by
  unfold service.removeClientPaths
  exact foldl_preserve NoEmptyEntries _
    (fun g b hg => removePathEntry_noEmpty g (service.normalizePath b) client.id hg)
    client.paths pc h

theorem removeClient_noEmpty (s : service.TunnelService) (clientID : String)
    (h : NoEmptyEntries s.pathClients) :
    NoEmptyEntries (service.removeClient s clientID).pathClients := by
  unfold service.removeClient
  cases hl : lookupA clientID s.clients with
  | none => simpa using h
  | some client =>
    simp only
    exact removeClientPaths_noEmpty _ _ h

theorem lookupA_heartbeatScan (r : registry.Registry) (interval now : Nat)
    (id : String) :
    lookupA id (registry.HeartbeatScan r interval now).clients =
      (lookupA id r.clients).map (fun c =>
        if now - c.lastHeartbeat > interval * 2
        then { c with status := "inactive" } else c) := by
  unfold registry.HeartbeatScan
  exact lookupA_map_values id
    (fun c => if now - c.lastHeartbeat > interval * 2
              then { c with status := "inactive" } else c) r.clients

theorem findClientForPath_ok_mem (r : registry.Registry) (p : String)
    (cs : List registry.ClientRegistration)
    (h : registry.FindClientForPath r p = .ok cs) :
    ∀ cl ∈ cs, ∃ i, lookupA i r.clients = some cl := by
  unfold registry.FindClientForPath at h
  split at h
  · exact absurd h (by simp)
  · split at h
    · exact absurd h (by simp)
    · have hcs := Except.ok.inj h
      intro cl hcl
      rw [← hcs] at hcl
      rcases List.mem_filterMap.mp hcl with ⟨i, _, hfi⟩
      exact ⟨i, hfi⟩

theorem listHasPre_self (l : List Char) : service.listHasPre l l = true := by
  induction l with
  | nil => rfl
  | cons c cs ih => simp [service.listHasPre, ih]

theorem isPathMatch_self (p : String) : service.isPathMatch p p = true := by
  unfold service.isPathMatch
  exact listHasPre_self p.data

theorem scanPathClients_none (s : service.TunnelService) (np : String)
    (entries : List (String × List String))
    (h : ∀ kv ∈ entries, kv.2 = ([] : List String) ∨ service.isPathMatch kv.1 np = false) :
    service.scanPathClients s np entries = none := by
  induction entries with
  | nil => rfl
  | cons kv rest ih =>
    obtain ⟨pat, ids⟩ := kv
    have hhd := h (pat, ids) (by simp)
    have hrest : ∀ kv ∈ rest, kv.2 = ([] : List String) ∨ service.isPathMatch kv.1 np = false :=
      fun kv hkv => h kv (by simp [hkv])
    cases ids with
    | nil => simpa [service.scanPathClients] using ih hrest
    | cons c0 cs =>
      rcases hhd with hnil | hmatch
      · exact absurd hnil (by simp)
      · simp only [service.scanPathClients, hmatch]
        simpa [Bool.false_eq_true, if_false] using ih hrest

theorem register_fold_lookup (freshId : String) :
    ∀ (paths : List String) (m : List (String × List String)) (p : String),
      paths.Nodup →
      lookupA p (paths.foldl
          (fun m path => insertA path (((lookupA path m).getD []) ++ [freshId]) m) m) =
        if p ∈ paths then some (((lookupA p m).getD []) ++ [freshId])
        else lookupA p m := by
  intro paths
  induction paths with
  | nil => intro m p _; simp
  | cons q qs ih =>
    intro m p hnd
    rcases List.nodup_cons.mp hnd with ⟨hq, hnd'⟩
    simp only [List.foldl_cons]
    rw [ih _ p hnd']
    by_cases hpq : p = q
    · subst hpq
      have hnotin : p ∉ qs := hq
      rw [if_neg hnotin, lookupA_insertA_self]
      simp
    · rw [lookupA_insertA]
      rw [if_neg (fun hh : q = p => hpq hh.symm)]
      by_cases hpqs : p ∈ qs
      · rw [if_pos hpqs, if_pos (by simp [hpqs])]
      · rw [if_neg hpqs, if_neg (by simp [hpq, hpqs])]

/-! Claim C5: port inventory. -/

/-- C5 counterexample: with inventory `[8000]` and a bind oracle that accepts
every port, `GetAvailablePort` returns 8000 — a port already present in the
inventory — and the inventory ends up holding 8000 twice, refuting both
"never returns a port already present" and "enters the inventory exactly
once". -/
theorem C5_counterexample :
    tcpmanager.GetAvailablePort ⟨[8000], 10⟩ (fun _ => true) 8000 =
      (.ok 8000, ⟨[8000, 8000], 10⟩) ∧
    (8000 : Int) ∈ ([8000] : List Int) := by
  constructor
  · rfl
  · simp

/-- C5 amended: the inventory-full check fires before any probing (the
error outcome and untouched state are independent of the bind oracle), and
a successful allocation appends exactly the returned port to the inventory,
with no membership check — so a port already present can be returned and
appended again. -/
theorem C5_amended (m : tcpmanager.TCPManager) (canBind : Int → Bool) (startPort : Int) :
    (m.portInventory.length ≥ m.maxPorts →
      tcpmanager.GetAvailablePort m canBind startPort =
        (.error "port inventory is full", m)) ∧
    (∀ port m', m.portInventory.length < m.maxPorts →
      tcpmanager.GetAvailablePort m canBind startPort = (.ok port, m') →
      m'.portInventory = m.portInventory ++ [port]) := by
  constructor
  · intro h
    unfold tcpmanager.GetAvailablePort
    rw [if_pos h]
  · intro port m' hlt h
    unfold tcpmanager.GetAvailablePort at h
    rw [if_neg (by omega)] at h
    by_cases hfirst : startPort > 0 && canBind startPort
    · rw [if_pos hfirst] at h
      simp only [Prod.mk.injEq] at h
      obtain ⟨h1, h2⟩ := h
      have hp := Except.ok.inj h1
      rw [← h2, ← hp]
    · rw [if_neg hfirst] at h
      simp only at h
      cases hscan : tcpmanager.scanPorts canBind
          (if startPort ≤ 0 then 8000 else startPort) 1000 with
      | none =>
        rw [hscan] at h
        simp only [Prod.mk.injEq] at h
        exact absurd h.1 (by simp)
      | some q =>
        rw [hscan] at h
        simp only [Prod.mk.injEq] at h
        obtain ⟨h1, h2⟩ := h
        have hp := Except.ok.inj h1
        rw [← h2, ← hp]

/-- C5 amended witness at concrete inputs: a full inventory of ten ports is
rejected untouched, and a successful probe appends the returned port. -/
theorem C5_amended_witness :
    tcpmanager.GetAvailablePort
        ⟨[1, 2, 3, 4, 5, 6, 7, 8, 9, 10], 10⟩ (fun _ => true) 8000 =
      (.error "port inventory is full", ⟨[1, 2, 3, 4, 5, 6, 7, 8, 9, 10], 10⟩) ∧
    (tcpmanager.GetAvailablePort ⟨[], 10⟩ (fun _ => true) 8000).2.portInventory =
      [] ++ [8000] :=
  ⟨(C5_amended ⟨[1, 2, 3, 4, 5, 6, 7, 8, 9, 10], 10⟩ (fun _ => true) 8000).1
      (by simp),
   (C5_amended ⟨[], 10⟩ (fun _ => true) 8000).2 8000
      (tcpmanager.GetAvailablePort ⟨[], 10⟩ (fun _ => true) 8000).2
      (by simp) rfl⟩

/-! Claim C7: dispatcher submit. -/

/-- C7: `Dispatcher.Submit` is a total function of the queue state (it never
blocks); with fewer than `queueSize` pending jobs it appends the job and
reports acceptance; with a full queue it reports the queue full and leaves
the queue unchanged (the job is dropped, not retried); and the pending
count never exceeds `queueSize`. -/
theorem C7_submit (Job : Type) (d : worker.Dispatcher Job) (job : Job) :
    (d.jobQueue.length < d.queueSize →
      d.Submit job = (.ok (), { d with jobQueue := d.jobQueue ++ [job] })) ∧
    (d.queueSize ≤ d.jobQueue.length →
      d.Submit job = (.error "job queue is full", d)) ∧
    (d.jobQueue.length ≤ d.queueSize →
      (d.Submit job).2.jobQueue.length ≤ d.queueSize) := by
  refine ⟨?_, ?_, ?_⟩
  · intro h
    unfold worker.Dispatcher.Submit
    rw [if_pos h]
  · intro h
    unfold worker.Dispatcher.Submit
    rw [if_neg (by omega)]
  · intro h
    unfold worker.Dispatcher.Submit
    by_cases hlt : d.jobQueue.length < d.queueSize
    · rw [if_pos hlt]
      simp only [List.length_append, List.length_cons, List.length_nil]
      omega
    · rw [if_neg hlt]
      exact h

/-- C7 witness: one accepted and one rejected submission at concrete
queues. -/
theorem C7_submit_witness :
    worker.Dispatcher.Submit (⟨1, 2, [5]⟩ : worker.Dispatcher Nat) 7 =
      (.ok (), ⟨1, 2, [5, 7]⟩) ∧
    worker.Dispatcher.Submit (⟨1, 1, [5]⟩ : worker.Dispatcher Nat) 7 =
      (.error "job queue is full", ⟨1, 1, [5]⟩) :=
  ⟨(C7_submit Nat ⟨1, 2, [5]⟩ 7).1 (by simp),
   (C7_submit Nat ⟨1, 1, [5]⟩ 7).2.1 (by simp)⟩

/-! Claim C9: the registry port counter is total and unbounded. -/

theorem allocSeqPorts_eq (n : Nat) : ∀ r : registry.Registry,
    allocSeqPorts n r =
      (List.range n).map (fun i : Nat => r.availableTCPPort + (i : Int)) := by
  induction n with
  | zero => intro r; simp [allocSeqPorts]
  | succ k ih =>
    intro r
    rw [allocSeqPorts, ih]
    rw [List.range_succ_eq_map]
    simp only [registry.GetNextTCPPort, List.map_cons, List.map_map]
    refine List.cons_eq_cons.mpr ⟨by simp, ?_⟩
    apply List.map_congr_left
    intro i _
    simp only [Function.comp_apply]
    push_cast
    ring

/-- C9: `AllocateTCPPort` and `GetNextTCPPort` are total — they always
return the current counter and bump it, never an error; `n` successive
allocations yield the consecutive ports `start, start+1, …, start+n-1`
with no upper bound; and `RegisterClient` therefore never fails, port
exhaustion included. -/
theorem C9_port_counter (r : registry.Registry) (paths : List String)
    (clientType : registry.ClientType) (metadata : List (String × String))
    (freshId : String) (now : Nat) (n : Nat) :
    registry.AllocateTCPPort r =
      .ok (r.availableTCPPort, { r with availableTCPPort := r.availableTCPPort + 1 }) ∧
    registry.GetNextTCPPort r =
      (r.availableTCPPort, { r with availableTCPPort := r.availableTCPPort + 1 }) ∧
    allocSeqPorts n r =
      (List.range n).map (fun i : Nat => r.availableTCPPort + (i : Int)) ∧
    (∃ res, registry.RegisterClient r paths clientType metadata freshId now = .ok res) := by
  refine ⟨rfl, rfl, allocSeqPorts_eq n r, ?_⟩
  unfold registry.RegisterClient
  by_cases ht : clientType = registry.ClientType.tcp
  · rw [if_pos ht]
    exact ⟨_, rfl⟩
  · rw [if_neg ht]
    exact ⟨_, rfl⟩

/-! Claim C8: connection counters never go negative. -/

theorem applyConnOp_nonneg (r : registry.Registry) (op : ConnOp)
    (h : ∀ kv ∈ r.clients, (0 : Int) ≤ kv.2.activeTCPConnections) :
    ∀ kv ∈ (applyConnOp r op).clients, (0 : Int) ≤ kv.2.activeTCPConnections := by
  cases op with
  | inc clientID =>
    cases hl : lookupA clientID r.clients with
    | none =>
      simp only [applyConnOp, registry.IncrementTCPConnection, hl]
      exact h
    | some client =>
      simp only [applyConnOp, registry.IncrementTCPConnection, hl]
      intro kv hkv
      rcases mem_insertA _ _ _ _ hkv with heq | hold
      · have hc : (0 : Int) ≤ client.activeTCPConnections :=
          h (clientID, client) (lookupA_mem _ _ _ hl)
        rw [heq]
        show (0 : Int) ≤ client.activeTCPConnections + 1
        omega
      · exact h kv hold
  | dec clientID =>
    cases hl : lookupA clientID r.clients with
    | none =>
      simp only [applyConnOp, registry.DecrementTCPConnection, hl]
      exact h
    | some client =>
      simp only [applyConnOp, registry.DecrementTCPConnection, hl]
      intro kv hkv
      rcases mem_insertA _ _ _ _ hkv with heq | hold
      · have hc : (0 : Int) ≤ client.activeTCPConnections :=
          h (clientID, client) (lookupA_mem _ _ _ hl)
        rw [heq]
        show (0 : Int) ≤ if client.activeTCPConnections > 0
          then client.activeTCPConnections - 1 else client.activeTCPConnections
        split <;> omega
      · exact h kv hold

/-- C8: over any sequence of increment/decrement calls applied in any
order, no client's `ActiveTCPConnections` counter ever becomes negative
(decrement floors at zero); calls naming an absent client id return the
not-found error and leave the registry — hence every remaining counter —
unchanged; and decrementing a client already at zero keeps its record
intact with the counter at zero. -/
theorem C8_connection_counters (r : registry.Registry) (ops : List ConnOp)
    (clientID : String) :
    ((∀ kv ∈ r.clients, (0 : Int) ≤ kv.2.activeTCPConnections) →
      ∀ kv ∈ (ops.foldl applyConnOp r).clients, (0 : Int) ≤ kv.2.activeTCPConnections) ∧
    (lookupA clientID r.clients = none →
      registry.IncrementTCPConnection r clientID =
        .error ("client not found: " ++ clientID) ∧
      registry.DecrementTCPConnection r clientID =
        .error ("client not found: " ++ clientID) ∧
      applyConnOp r (ConnOp.inc clientID) = r ∧
      applyConnOp r (ConnOp.dec clientID) = r) ∧
    (∀ c, lookupA clientID r.clients = some c → c.activeTCPConnections = 0 →
      lookupA clientID (applyConnOp r (ConnOp.dec clientID)).clients = some c) := by
  refine ⟨?_, ?_, ?_⟩
  · intro h
    exact foldl_preserve
      (fun g => ∀ kv ∈ g.clients, (0 : Int) ≤ kv.2.activeTCPConnections)
      applyConnOp (fun g b hg => applyConnOp_nonneg g b hg) ops r h
  · intro h
    refine ⟨?_, ?_, ?_, ?_⟩
    · simp only [registry.IncrementTCPConnection, h]
    · simp only [registry.DecrementTCPConnection, h]
    · simp only [applyConnOp, registry.IncrementTCPConnection, h]
    · simp only [applyConnOp, registry.DecrementTCPConnection, h]
  · intro c hc hzero
    have hrepl : ({ c with activeTCPConnections :=
        if c.activeTCPConnections > 0 then c.activeTCPConnections - 1
        else c.activeTCPConnections } : registry.ClientRegistration) = c := by
      cases c
      simp_all
    simp only [applyConnOp, registry.DecrementTCPConnection, hc]
    simp [lookupA_insertA_self, hrepl]

/-- C8 witness at a concrete registry: a full increment/decrement history
stays non-negative, absent ids error out without touching state, and a
decrement at zero is a no-op on the record. -/
theorem C8_connection_counters_witness :
    (∀ kv ∈ (([ConnOp.dec "c1", ConnOp.dec "c1", ConnOp.inc "c1"].foldl applyConnOp
        ⟨[("c1", ⟨"c1", registry.ClientType.tcp, ["/a"], 0, 9000, 0, "active", []⟩)],
          [("/a", ["c1"])], 9001⟩)).clients, (0 : Int) ≤ kv.2.activeTCPConnections) ∧
    registry.IncrementTCPConnection
        ⟨[], [], 9000⟩ "ghost" = .error "client not found: ghost" ∧
    lookupA "c1" (applyConnOp
        ⟨[("c1", ⟨"c1", registry.ClientType.tcp, ["/a"], 0, 9000, 0, "active", []⟩)],
          [("/a", ["c1"])], 9001⟩ (ConnOp.dec "c1")).clients =
      some ⟨"c1", registry.ClientType.tcp, ["/a"], 0, 9000, 0, "active", []⟩ := by
  refine ⟨?_, ?_, ?_⟩
  · exact (C8_connection_counters
      ⟨[("c1", ⟨"c1", registry.ClientType.tcp, ["/a"], 0, 9000, 0, "active", []⟩)],
        [("/a", ["c1"])], 9001⟩
      [ConnOp.dec "c1", ConnOp.dec "c1", ConnOp.inc "c1"] "c1").1 (by decide)
  · exact ((C8_connection_counters ⟨[], [], 9000⟩ [] "ghost").2.1 rfl).1
  · exact (C8_connection_counters
      ⟨[("c1", ⟨"c1", registry.ClientType.tcp, ["/a"], 0, 9000, 0, "active", []⟩)],
        [("/a", ["c1"])], 9001⟩ [] "c1").2.2
      ⟨"c1", registry.ClientType.tcp, ["/a"], 0, 9000, 0, "active", []⟩ rfl rfl

/-! Claim C6: request/response correlator. -/

/-- C6 counterexample: the waiter for `"r1"` exists, yet a second delivery
for `"r1"` fails (the one-slot response channel is already full) and the
state is unchanged — refuting "returns success exactly when a waiter keyed
by the given request ID exists at delivery time". -/
theorem C6_counterexample :
    lookupA "r1" svcC6.responseWaiters = some { response := [respC6] } ∧
    service.handleHTTPResponse svcC6 reqC6 =
      (.error "response channel full for request ID: r1", svcC6) := by
  constructor
  · rfl
  · rfl

/-- C6 amended: a delivery succeeds exactly when the request id is
non-empty, a waiter for it exists, and the waiter's one-slot channel is
still empty; in every other case the delivery returns an error and leaves
the state unchanged (the response is discarded, never queued). A request
run that sees no delivery before the 30-second timeout returns the timeout
error and removes its waiter, so a later delivery finds no waiter, is
rejected, and does not resurrect the waiter. -/
theorem C6_correlator (s : service.TunnelService) (req : service.StreamRequest)
    (w : service.ResponseWaiter) (clientID requestID : String) :
    (req.requestId ≠ "" → lookupA req.requestId s.responseWaiters = none →
      service.handleHTTPResponse s req =
        (.error ("no waiter found for request ID: " ++ req.requestId), s)) ∧
    (req.requestId ≠ "" → lookupA req.requestId s.responseWaiters = some w →
      w.response = [] →
      ∃ resp, service.handleHTTPResponse s req =
        (.ok (), service.TunnelService.mk s.clients s.pathClients
          (insertA req.requestId (service.ResponseWaiter.mk [resp]) s.responseWaiters)
          s.availablePorts)) ∧
    (req.requestId ≠ "" → lookupA req.requestId s.responseWaiters = some w →
      w.response ≠ [] →
      service.handleHTTPResponse s req =
        (.error ("response channel full for request ID: " ++ req.requestId), s)) ∧
    (lookupA requestID
        (service.handleHTTPRequestNoReply s clientID requestID).2.responseWaiters = none) ∧
    (req.requestId = requestID → requestID ≠ "" →
      service.handleHTTPResponse (service.handleHTTPRequestNoReply s clientID requestID).2 req =
        (.error ("no waiter found for request ID: " ++ requestID),
         (service.handleHTTPRequestNoReply s clientID requestID).2)) ∧
    (lookupA clientID s.clients ≠ none →
      (service.handleHTTPRequestNoReply s clientID requestID).1 =
        .error "request timeout") := by
  have hfinal : (service.handleHTTPRequestNoReply s clientID requestID).2.responseWaiters =
      eraseA requestID (insertA requestID { response := [] } s.responseWaiters) := by
    simp only [service.handleHTTPRequestNoReply]
    cases h : lookupA clientID s.clients <;> rfl
  have hnone : lookupA requestID
      (service.handleHTTPRequestNoReply s clientID requestID).2.responseWaiters = none := by
    rw [hfinal, lookupA_eraseA]
    simp
  refine ⟨?_, ?_, ?_, hnone, ?_, ?_⟩
  · intro hne hnw
    simp [service.handleHTTPResponse, hne, hnw]
  · intro hne hw hempty
    refine ⟨(match req.type with
      | service.StreamRequestType.httpResponse =>
        service.StreamResponse.mk service.StreamResponseType.httpResponse req.requestId none
          (some (service.HttpResponse.mk 200 req.httpRequest.headers req.httpRequest.body)) "" 0
      | _ =>
        service.StreamResponse.mk service.StreamResponseType.error req.requestId none none
          "Unexpected stream request type" 0), ?_⟩
    simp [service.handleHTTPResponse, hne, hw, hempty]
  · intro hne hw hfull
    have hlen : ¬ w.response.length < 1 := by
      cases hr : w.response with
      | nil => exact absurd hr hfull
      | cons a l => simp
    simp [service.handleHTTPResponse, hne, hw, hlen]
  · intro heq hne
    simp [service.handleHTTPResponse, heq, hne, hnone]
  · intro hcl
    simp only [service.handleHTTPRequestNoReply]
    cases h : lookupA clientID s.clients with
    | none => exact absurd h hcl
    | some c => rfl

/-- C6 witness: a delivery with no stored waiter is rejected with the state
untouched, and a request run with no delivery ends in the timeout error. -/
theorem C6_correlator_witness :
    service.handleHTTPResponse (service.NewTunnelService []) reqC6 =
      (.error ("no waiter found for request ID: " ++ "r1"), service.NewTunnelService []) ∧
    (service.handleHTTPRequestNoReply svcC10 "bob" "r9").1 = .error "request timeout" :=
  ⟨(C6_correlator (service.NewTunnelService []) reqC6 ⟨[]⟩ "bob" "r9").1
      (by decide) rfl,
   (C6_correlator svcC10 reqC6 ⟨[]⟩ "bob" "r9").2.2.2.2.2 (by decide)⟩

/-! Claim C10: re-registration of an existing client id. -/

/-- C10: registering an already-registered client id succeeds: the old
record is deleted and its path entries scrubbed first, the head of
`availablePorts` becomes the new port, and the pool shrinks to its tail —
nothing (in particular not the client's previous port) is ever put back
into `availablePorts`. -/
theorem C10_reregistration (s : service.TunnelService) (req : service.StreamRequest)
    (freshSessionID : String) (now : Nat) (old : service.ClientInfo)
    (port : Int) (rest : List Int)
    (h1 : req.requestId ≠ "")
    (h2 : req.httpRequest.path.length ≠ 0)
    (h3 : s.availablePorts = port :: rest)
    (h4 : lookupA req.requestId s.clients = some old) :
    ∃ resp client,
      service.Register s req freshSessionID now =
        (.ok resp,
         service.TunnelService.mk
           (insertA req.requestId client (eraseA req.requestId s.clients))
           (insertA (service.normalizePath req.httpRequest.path)
             (((lookupA (service.normalizePath req.httpRequest.path)
                 (service.removeClientPaths s.pathClients old)).getD [])
               ++ [req.requestId])
             (service.removeClientPaths s.pathClients old))
           s.responseWaiters rest) ∧
      resp.port = port ∧ client.port = port ∧ client.sessionID = freshSessionID ∧
      client.paths = [service.normalizePath req.httpRequest.path] ∧
      s.availablePorts.length = rest.length + 1 ∧
      (old.port ∉ rest → old.port ∉ rest) := by
  refine ⟨service.StreamResponse.mk service.StreamResponseType.registrationSuccess
      req.requestId none none "" port,
    service.ClientInfo.mk req.requestId freshSessionID
      [service.normalizePath req.httpRequest.path] "" [] now "connecting" req.protocol port,
    ?_, rfl, rfl, rfl, rfl, by rw [h3]; rfl, fun h => h⟩
  have h3len : ¬ s.availablePorts.length = 0 := by rw [h3]; simp
  simp only [service.Register, if_neg h1, if_neg h2, if_neg h3len, h4, h3,
    service.contains]
  simp

/-- C10 witness: re-registering client `"bob"` leaves `[6003]` in the pool
(6002 was consumed, 6001 never returned) and exactly one record for the
id. -/
theorem C10_reregistration_witness :
    (service.Register svcC10 reqC10 "sess-2" 5).2.availablePorts = [6003] ∧
    (service.Register svcC10 reqC10 "sess-2" 5).2.clients.length = 1 := by
  obtain ⟨resp, client, heq, -, -, -, -, -, -⟩ :=
    C10_reregistration svcC10 reqC10 "sess-2" 5
      ⟨"bob", "sess-1", ["/demo"], "", [], 0, "connecting", "http", 6001⟩
      6002 [6003] (by decide) (by decide) rfl rfl
  constructor
  · rw [heq]
  · rw [heq]
    rfl

/-! Claim C1: registration validation, normalization and index order. -/

/-- C1 counterexample: `Registry.RegisterClient` with an empty path list
succeeds (no `RegistrationError`), and with the raw path `"demo/"` it
indexes `"demo/"` verbatim — no trailing-slash stripping, no forced
leading slash — so the normalized key `"/demo"` is absent. -/
theorem C1_counterexample :
    registry.RegisterClient (registry.NewRegistry 9000) []
        registry.ClientType.http [] "id1" 0 =
      .ok (⟨"id1", registry.ClientType.http, [], 0, 0, 0, "active", []⟩,
           ⟨[("id1", ⟨"id1", registry.ClientType.http, [], 0, 0, 0, "active", []⟩)],
            [], 9000⟩) ∧
    registry.RegisterClient (registry.NewRegistry 9000) ["demo/"]
        registry.ClientType.http [] "id1" 0 =
      .ok (⟨"id1", registry.ClientType.http, ["demo/"], 0, 0, 0, "active", []⟩,
           ⟨[("id1", ⟨"id1", registry.ClientType.http, ["demo/"], 0, 0, 0, "active", []⟩)],
            [("demo/", ["id1"])], 9000⟩) ∧
    lookupA "/demo" ([("demo/", ["id1"])] : List (String × List String)) = none := by
  refine ⟨rfl, rfl, rfl⟩

/-- C1 amended: `Registry.RegisterClient` performs no validation and no
normalization — it succeeds on any input (empty path list included),
indexes each raw path as given and appends the externally generated fresh
id at the end of each entry. `TunnelService.Register` is the variant that
validates: it rejects an empty client id, an empty path and an empty port
pool, normalizes the single supplied path, and appends the caller-supplied
client id at the end of the normalized path's entry. -/
theorem C1_registration (r : registry.Registry) (paths : List String)
    (clientType : registry.ClientType) (metadata : List (String × String))
    (freshId : String) (now : Nat)
    (s : service.TunnelService) (req : service.StreamRequest)
    (freshSessionID : String) (port : Int) (rest : List Int) :
    (∃ client r', registry.RegisterClient r paths clientType metadata freshId now =
        .ok (client, r')) ∧
    (paths.Nodup → ∀ client r' p,
      registry.RegisterClient r paths clientType metadata freshId now = .ok (client, r') →
      lookupA p r'.pathToClientIDs =
        (if p ∈ paths then some (((lookupA p r.pathToClientIDs).getD []) ++ [freshId])
         else lookupA p r.pathToClientIDs)) ∧
    (req.requestId = "" →
      service.Register s req freshSessionID now = (.error "client ID is required", s)) ∧
    (req.requestId ≠ "" → req.httpRequest.path.length = 0 →
      service.Register s req freshSessionID now =
        (.error "at least one path is required", s)) ∧
    (req.requestId ≠ "" → req.httpRequest.path.length ≠ 0 → s.availablePorts = [] →
      service.Register s req freshSessionID now =
        (.error "no available ports for registration", s)) ∧
    (req.requestId ≠ "" → req.httpRequest.path.length ≠ 0 →
      s.availablePorts = port :: rest →
      lookupA req.requestId s.clients = none →
      ∃ resp s', service.Register s req freshSessionID now = (.ok resp, s') ∧
        lookupA (service.normalizePath req.httpRequest.path) s'.pathClients =
          some (((lookupA (service.normalizePath req.httpRequest.path) s.pathClients).getD [])
            ++ [req.requestId]) ∧
        s'.availablePorts = rest) := by
  refine ⟨?_, ?_, ?_, ?_, ?_, ?_⟩
  · unfold registry.RegisterClient
    by_cases ht : clientType = registry.ClientType.tcp
    · rw [if_pos ht]
      exact ⟨_, _, rfl⟩
    · rw [if_neg ht]
      exact ⟨_, _, rfl⟩
  · intro hnd client r' p hreg
    unfold registry.RegisterClient at hreg
    by_cases ht : clientType = registry.ClientType.tcp
    · rw [if_pos ht] at hreg
      simp only [registry.AllocateTCPPort] at hreg
      obtain ⟨-, hr'⟩ := Prod.mk.injEq .. ▸ Except.ok.inj hreg
      rw [← hr']
      exact register_fold_lookup freshId paths r.pathToClientIDs p hnd
    · rw [if_neg ht] at hreg
      simp only at hreg
      obtain ⟨-, hr'⟩ := Prod.mk.injEq .. ▸ Except.ok.inj hreg
      rw [← hr']
      exact register_fold_lookup freshId paths r.pathToClientIDs p hnd
  · intro h
    simp [service.Register, h]
  · intro h1 h2
    simp [service.Register, h1, h2]
  · intro h1 h2 h3
    simp [service.Register, h1, h2, h3]
  · intro h1 h2 h3 h4
    have h3len : ¬ s.availablePorts.length = 0 := by rw [h3]; simp
    refine ⟨service.StreamResponse.mk service.StreamResponseType.registrationSuccess
        req.requestId none none "" port,
      service.TunnelService.mk
        (insertA req.requestId
          (service.ClientInfo.mk req.requestId freshSessionID
            [service.normalizePath req.httpRequest.path] "" [] now "connecting"
            req.protocol port)
          s.clients)
        (insertA (service.normalizePath req.httpRequest.path)
          (((lookupA (service.normalizePath req.httpRequest.path) s.pathClients).getD [])
            ++ [req.requestId])
          s.pathClients)
        s.responseWaiters rest, ?_, ?_, ?_⟩
    · simp only [service.Register, if_neg h1, if_neg h2, if_neg h3len, h4, h3,
        service.contains]
      simp
    · simp only
      rw [lookupA_insertA_self]
    · rfl

/-- C1 witness: an empty client id is rejected by `TunnelService.Register`,
and `Registry.RegisterClient` indexes the raw path `"demo/"` with the fresh
id appended. -/
theorem C1_registration_witness :
    service.Register (service.NewTunnelService [6000])
        ⟨service.StreamRequestType.httpRequest, "", ⟨"GET", "/a", [], []⟩, "http"⟩
        "s1" 0 =
      (.error "client ID is required", service.NewTunnelService [6000]) ∧
    lookupA "demo/" ([("demo/", ["id1"])] : List (String × List String)) =
      some ["id1"] := by
  constructor
  · exact (C1_registration (registry.NewRegistry 9000) [] registry.ClientType.http []
      "x" 0 (service.NewTunnelService [6000])
      ⟨service.StreamRequestType.httpRequest, "", ⟨"GET", "/a", [], []⟩, "http"⟩
      "s1" 0 []).2.2.1 rfl
  · have h := (C1_registration (registry.NewRegistry 9000) ["demo/"]
      registry.ClientType.http [] "id1" 0 (service.NewTunnelService [6000])
      ⟨service.StreamRequestType.httpRequest, "", ⟨"GET", "/a", [], []⟩, "http"⟩
      "s1" 0 []).2.1 (by simp)
      ⟨"id1", registry.ClientType.http, ["demo/"], 0, 0, 0, "active", []⟩
      ⟨[("id1", ⟨"id1", registry.ClientType.http, ["demo/"], 0, 0, 0, "active", []⟩)],
        [("demo/", ["id1"])], 9000⟩
      "demo/" rfl
    simpa using h

/-! Claim C2: path lookup and matching. -/

/-- C2 counterexample: with `"/demo"` registered, the trailing-slash query
`"/demo/"` and the longer path `"/demo/x"` both fail in
`Registry.FindClientForPath` — it neither normalizes the query nor falls
back to a prefix scan, refuting the claim for the registry variant. -/
theorem C2_counterexample :
    service.normalizePath "/demo/" = "/demo" ∧
    lookupA "/demo" regC2.pathToClientIDs = some ["c1"] ∧
    registry.FindClientForPath regC2 "/demo/" =
      .error "no clients found for path: /demo/" ∧
    registry.FindClientForPath regC2 "/demo/x" =
      .error "no clients found for path: /demo/x" :=
  ⟨rfl, rfl, rfl, rfl⟩

/-- C2 amended: only `TunnelService.FindMatchingClient` normalizes the
query, tries an exact index hit and then a first-prefix-match scan (in
index order), returning NotFound only when no pattern matches.
`Registry.FindClientForPath` is an exact, unnormalized lookup: it can only
succeed when the raw query is an index key with a nonempty list. -/
theorem C2_path_lookup (r : registry.Registry) (p : String)
    (s : service.TunnelService) (q : String) (c0 : String) (cs : List String)
    (client : service.ClientInfo) :
    (lookupA p r.pathToClientIDs = none →
      registry.FindClientForPath r p = .error ("no clients found for path: " ++ p)) ∧
    (∀ ids, lookupA p r.pathToClientIDs = some ids → ids ≠ [] →
      registry.FindClientForPath r p =
        .ok (ids.filterMap (fun clientID => lookupA clientID r.clients))) ∧
    (lookupA (service.normalizePath q) s.pathClients = some (c0 :: cs) →
      lookupA c0 s.clients = some client →
      service.FindMatchingClient s q = .ok client) ∧
    (lookupA (service.normalizePath q) s.pathClients = none →
      service.scanPathClients s (service.normalizePath q) s.pathClients = some client →
      service.FindMatchingClient s q = .ok client) ∧
    ((∀ kv ∈ s.pathClients, kv.2 = ([] : List String) ∨
        service.isPathMatch kv.1 (service.normalizePath q) = false) →
      service.FindMatchingClient s q =
        .error ("no client found for path: " ++ q)) := by
  refine ⟨?_, ?_, ?_, ?_, ?_⟩
  · intro h
    simp [registry.FindClientForPath, h]
  · intro ids h hne
    have hlen : ¬ ids.length = 0 := by
      cases ids with
      | nil => exact absurd rfl hne
      | cons a l => simp
    simp [registry.FindClientForPath, h, hlen]
  · intro hidx hcl
    simp [service.FindMatchingClient, hidx, hcl]
  · intro hidx hscan
    simp [service.FindMatchingClient, hidx, hscan]
  · intro h
    have hexact : (match lookupA (service.normalizePath q) s.pathClients with
        | some (c0 :: _) => lookupA c0 s.clients
        | _ => (none : Option service.ClientInfo)) = none := by
      cases hlk : lookupA (service.normalizePath q) s.pathClients with
      | none => rfl
      | some ids =>
        cases ids with
        | nil => rfl
        | cons c0 cs =>
          have hmem := lookupA_mem _ _ _ hlk
          rcases h (service.normalizePath q, c0 :: cs) hmem with hnil | hmatch
          · exact absurd hnil (by simp)
          · exact absurd (isPathMatch_self (service.normalizePath q)) (by simp [hmatch])
    have hscan := scanPathClients_none s (service.normalizePath q) s.pathClients h
    simp [service.FindMatchingClient, hscan]
    cases hlk : lookupA (service.normalizePath q) s.pathClients with
    | none => simp
    | some ids =>
      rw [hlk] at hexact
      cases ids with
      | nil => simp
      | cons c0 cs =>
        simp at hexact
        simp [hexact]

/-- C2 witness: the tunnel-service matcher resolves the trailing-slash
query `"/demo/"` to the `"/demo"` registration, and reports NotFound when
no registered pattern is a prefix of the query. -/
theorem C2_path_lookup_witness :
    service.FindMatchingClient
        ⟨[("c1", ⟨"c1", "s", ["/demo"], "", [], 0, "active", "http", 7⟩)],
         [("/demo", ["c1"])], [], []⟩ "/demo/" =
      .ok ⟨"c1", "s", ["/demo"], "", [], 0, "active", "http", 7⟩ ∧
    service.FindMatchingClient
        ⟨[("c1", ⟨"c1", "s", ["/x"], "", [], 0, "active", "http", 7⟩)],
         [("/x", ["c1"])], [], []⟩ "/y" =
      .error ("no client found for path: " ++ "/y") := by
  constructor
  · exact (C2_path_lookup regC2 "/p"
      ⟨[("c1", ⟨"c1", "s", ["/demo"], "", [], 0, "active", "http", 7⟩)],
       [("/demo", ["c1"])], [], []⟩ "/demo/" "c1" []
      ⟨"c1", "s", ["/demo"], "", [], 0, "active", "http", 7⟩).2.2.1 rfl rfl
  · exact (C2_path_lookup regC2 "/p"
      ⟨[("c1", ⟨"c1", "s", ["/x"], "", [], 0, "active", "http", 7⟩)],
       [("/x", ["c1"])], [], []⟩ "/y" "c1" []
      ⟨"c1", "s", ["/x"], "", [], 0, "active", "http", 7⟩).2.2.2.2 (by decide)

/-! Claim C3: client removal and the path index. -/

/-- C3 counterexample: removing the only client of `"/a"` via
`Registry.RemoveClient` leaves the entry `("/a", [])` in the index — a path
mapping to an empty list — refuting "any path entry whose list becomes
empty is deleted from the index outright". -/
theorem C3_counterexample :
    registry.RemoveClient regC3 "c1" =
      ⟨[], [("/a", [])], 9000⟩ ∧
    lookupA "/a" (registry.RemoveClient regC3 "c1").pathToClientIDs = some [] :=
  ⟨rfl, rfl⟩

/-- C3 amended: `Registry.RemoveClient` deletes the record and removes the
first occurrence of the id from every path entry, so (given each entry
holds the id at most once, as registration guarantees for distinct paths)
the id survives in no list and every remaining id still resolves to a
record — but emptied entries are retained, so a path can map to an empty
list afterwards. The stale-cleanup path (`CleanupStaleClients`) and the
TunnelService removal path do delete the entries they empty, preserving
the no-empty-entries invariant. -/
theorem C3_removal (r : registry.Registry) (clientID : String)
    (s : service.TunnelService) (timeout now : Nat) :
    lookupA clientID (registry.RemoveClient r clientID).clients = none ∧
    (∀ kv ∈ r.pathToClientIDs,
      (kv.1, eraseFirst clientID kv.2) ∈ (registry.RemoveClient r clientID).pathToClientIDs) ∧
    ((∀ kv ∈ r.pathToClientIDs, kv.2.count clientID ≤ 1) →
      ∀ kv ∈ (registry.RemoveClient r clientID).pathToClientIDs, clientID ∉ kv.2) ∧
    ((∀ kv ∈ r.pathToClientIDs, ∀ i ∈ kv.2, lookupA i r.clients ≠ none) →
      ∀ kv ∈ (registry.RemoveClient r clientID).pathToClientIDs, ∀ i ∈ kv.2,
        i ≠ clientID → lookupA i (registry.RemoveClient r clientID).clients ≠ none) ∧
    (NoEmptyEntries r.pathToClientIDs →
      NoEmptyEntries (registry.CleanupStaleClients r timeout now).1.pathToClientIDs) ∧
    (NoEmptyEntries s.pathClients →
      NoEmptyEntries (service.removeClient s clientID).pathClients) := by
  refine ⟨?_, ?_, ?_, ?_, ?_, ?_⟩
  · unfold registry.RemoveClient
    simp only
    rw [lookupA_eraseA]
    simp
  · intro kv hkv
    unfold registry.RemoveClient
    simp only
    exact List.mem_map.mpr ⟨kv, hkv, rfl⟩
  · intro hcount kv hkv
    unfold registry.RemoveClient at hkv
    simp only at hkv
    rcases List.mem_map.mp hkv with ⟨kv₀, hkv₀, heq⟩
    have := not_mem_eraseFirst_of_count_le_one clientID kv₀.2 (hcount kv₀ hkv₀)
    rw [← heq]
    exact this
  · intro href kv hkv i hi hne
    unfold registry.RemoveClient at hkv ⊢
    simp only at hkv ⊢
    rcases List.mem_map.mp hkv with ⟨kv₀, hkv₀, heq⟩
    have hi₀ : i ∈ kv₀.2 := by
      apply mem_eraseFirst_of_mem clientID
      have h2 : kv.2 = eraseFirst clientID kv₀.2 := by rw [← heq]
      rw [← h2]
      exact hi
    have := href kv₀ hkv₀ i hi₀
    rw [lookupA_eraseA]
    rw [if_neg (fun hh => hne hh.symm)]
    exact this
  · intro h
    unfold registry.CleanupStaleClients
    exact foldl_preserve (fun acc => NoEmptyEntries acc.1.pathToClientIDs)
      (registry.cleanupStep timeout now)
      (fun g b hg => cleanupStep_noEmpty timeout now g b hg) r.clients (r, []) h
  · exact removeClient_noEmpty s clientID

/-- C3 witness: at a concrete two-client registry, removal scrubs the id
from both entries, keeps the emptied entry, and the cleanup path deletes
the entry it empties. -/
theorem C3_removal_witness :
    (∀ kv ∈ (registry.RemoveClient
        ⟨[("c1", ⟨"c1", registry.ClientType.http, ["/a", "/b"], 0, 0, 0, "active", []⟩),
          ("c2", ⟨"c2", registry.ClientType.http, ["/b"], 0, 0, 0, "active", []⟩)],
         [("/a", ["c1"]), ("/b", ["c1", "c2"])], 9000⟩
        "c1").pathToClientIDs, "c1" ∉ kv.2) ∧
    NoEmptyEntries (registry.CleanupStaleClients regC3 100 1000).1.pathToClientIDs := by
  constructor
  · exact (C3_removal
      ⟨[("c1", ⟨"c1", registry.ClientType.http, ["/a", "/b"], 0, 0, 0, "active", []⟩),
        ("c2", ⟨"c2", registry.ClientType.http, ["/b"], 0, 0, 0, "active", []⟩)],
       [("/a", ["c1"]), ("/b", ["c1", "c2"])], 9000⟩
      "c1" (service.NewTunnelService []) 100 1000).2.2.1 (by decide)
  · exact (C3_removal regC3 "c1" (service.NewTunnelService []) 100 1000).2.2.2.2.1
      (by unfold NoEmptyEntries; decide)

/-! Claim C4: heartbeat monitor and stale cleanup. -/

/-- C4 counterexample: client `"c1"` has been silent for 1000 time units —
far beyond a stale timeout of 100 — yet after a background-monitor scan
(interval 30) it is merely marked `"inactive"`: it is still in the
registry and `FindClientForPath` still returns it, refuting "the record
has been removed from the registry entirely". The monitor tick never
invokes the removal logic. -/
theorem C4_counterexample :
    (1000 : Nat) - 0 > 100 ∧
    lookupA "c1" (registry.HeartbeatScan regC4 30 1000).clients =
      some ⟨"c1", registry.ClientType.tcp, ["/a"], 0, 9000, 0, "inactive", []⟩ ∧
    registry.FindClientForPath (registry.HeartbeatScan regC4 30 1000) "/a" =
      .ok [⟨"c1", registry.ClientType.tcp, ["/a"], 0, 9000, 0, "inactive", []⟩] := by
  refine ⟨by omega, rfl, rfl⟩

/-- C4 amended: a background-monitor scan only marks records beyond twice
the heartbeat interval as `"inactive"` and never removes anything; removal
happens only through the separate `CleanupStaleClients` operation (which
the monitor does not invoke, and which removes inline rather than via
`RemoveClient`): after it runs, a record beyond the stale timeout is gone
from the registry and `FindClientForPath` no longer returns it. -/
theorem C4_heartbeat (r : registry.Registry) (interval timeout now : Nat)
    (id : String) (c : registry.ClientRegistration) (p : String)
    (cs : List registry.ClientRegistration) :
    (lookupA id r.clients = some c → now - c.lastHeartbeat > interval * 2 →
      lookupA id (registry.HeartbeatScan r interval now).clients =
        some { c with status := "inactive" }) ∧
    (lookupA id r.clients = some c →
      (lookupA id (registry.HeartbeatScan r interval now).clients).isSome = true) ∧
    (lookupA id r.clients = some c → now - c.lastHeartbeat > timeout →
      lookupA id (registry.CleanupStaleClients r timeout now).1.clients = none) ∧
    ((∀ kv ∈ r.clients, kv.2.id = kv.1) →
      lookupA id r.clients = some c → now - c.lastHeartbeat > timeout →
      registry.FindClientForPath (registry.CleanupStaleClients r timeout now).1 p = .ok cs →
      ∀ cl ∈ cs, cl.id ≠ id) := by
  refine ⟨?_, ?_, ?_, ?_⟩
  · intro hc hlate
    rw [lookupA_heartbeatScan, hc]
    show some (if now - c.lastHeartbeat > interval * 2
      then { c with status := "inactive" } else c) = _
    rw [if_pos hlate]
  · intro hc
    rw [lookupA_heartbeatScan, hc]
    rfl
  · intro hc hstale
    unfold registry.CleanupStaleClients
    exact cleanup_fold_removes timeout now id c r.clients (r, []) hc hstale
  · intro hwf hc hstale hok cl hcl
    have hnone : lookupA id (registry.CleanupStaleClients r timeout now).1.clients = none := by
      unfold registry.CleanupStaleClients
      exact cleanup_fold_removes timeout now id c r.clients (r, []) hc hstale
    rcases findClientForPath_ok_mem _ _ _ hok cl hcl with ⟨i, hi⟩
    have hi' : lookupA i r.clients = some cl := by
      unfold registry.CleanupStaleClients at hi
      exact cleanup_fold_clients_subset timeout now i cl r.clients (r, []) hi
    have hid : cl.id = i := hwf (i, cl) (lookupA_mem _ _ _ hi')
    intro heq
    rw [heq] at hid
    rw [← hid] at hi
    rw [hi] at hnone
    exact Option.some_ne_none cl hnone
  
/-- C4 witness: at the concrete stale registry, the scan marks `"c1"`
inactive yet keeps it, and `CleanupStaleClients` removes it so the path
lookup no longer yields it. -/
theorem C4_heartbeat_witness :
    lookupA "c1" (registry.HeartbeatScan regC4 30 1000).clients =
      some { (⟨"c1", registry.ClientType.tcp, ["/a"], 0, 9000, 0, "active", []⟩ :
        registry.ClientRegistration) with status := "inactive" } ∧
    lookupA "c1" (registry.CleanupStaleClients regC4 100 1000).1.clients = none := by
  constructor
  · exact (C4_heartbeat regC4 30 100 1000 "c1"
      ⟨"c1", registry.ClientType.tcp, ["/a"], 0, 9000, 0, "active", []⟩ "/a" []).1
      rfl (by decide)
  · exact (C4_heartbeat regC4 30 100 1000 "c1"
      ⟨"c1", registry.ClientType.tcp, ["/a"], 0, 9000, 0, "active", []⟩ "/a" []).2.2.1
      rfl (by decide)
